import Mathlib

/-!
Verification of the paperreader2 document-conversion core.

The Python source under backend/app is shallowly embedded: strings are
modelled as `List Char`, fallible calls (model construction, filesystem
operations, the OCR engine) as `Except PyExc` values passed in explicitly,
and the filesystem artifacts written by the background task as the pure
data the code would write.  Every definition is translated from the source
file named in its doc comment.
-/

/-- Model of a Python string: a list of characters. -/
abbrev PyStr := List Char

/-- The character list of a Lean string literal. -/
def chars (s : String) : PyStr := s.data

/-- True when the second list begins with the first (`str.startswith`). -/
def ledBy : PyStr → PyStr → Bool
  | [], _ => true
  | _ :: _, [] => false
  | p :: ps, s :: ss => p == s && ledBy ps ss

/-- True when `p` occurs contiguously inside `s` (Python `p in s`). -/
def hasSub (p : PyStr) : PyStr → Bool
  | [] => ledBy p []
  | c :: cs => ledBy p (c :: cs) || hasSub p cs

/-- Number of positions of `s` at which `p` occurs (occurrence count). -/
def countSub (p : PyStr) : PyStr → Nat
  | [] => if ledBy p [] then 1 else 0
  | c :: cs => (if ledBy p (c :: cs) then 1 else 0) + countSub p cs

theorem ledBy_append_self (p t : PyStr) : ledBy p (p ++ t) = true := by
  induction p with
  | nil => rfl
  | cons c cs ih => simp [ledBy, ih]

theorem ledBy_extend {p s : PyStr} (t : PyStr) (h : ledBy p s = true) :
    ledBy p (s ++ t) = true := by
  induction p generalizing s with
  | nil => rfl
  | cons c cs ih =>
    cases s with
    | nil => simp [ledBy] at h
    | cons b bs =>
      simp only [ledBy, Bool.and_eq_true, beq_iff_eq] at h
      simp [ledBy, h.1, ih h.2]

theorem hasSub_nil_left (s : PyStr) : hasSub [] s = true := by
  cases s <;> simp [hasSub, ledBy]

theorem hasSub_append_right {p s : PyStr} (t : PyStr) (h : hasSub p s = true) :
    hasSub p (t ++ s) = true := by
  induction t with
  | nil => simpa using h
  | cons c cs ih => simp [hasSub, ih]

theorem hasSub_append_left {p s : PyStr} (t : PyStr) (h : hasSub p s = true) :
    hasSub p (s ++ t) = true := by
  induction s with
  | nil =>
    cases p with
    | nil => exact hasSub_nil_left t
    | cons d ds => simp [hasSub, ledBy] at h
  | cons c cs ih =>
    simp only [hasSub, Bool.or_eq_true] at h
    rcases h with h | h
    · have hx := ledBy_extend t h
      simp only [hasSub, List.cons_append, Bool.or_eq_true]
      exact Or.inl (by simpa using hx)
    · simp [hasSub, ih h]

theorem hasSub_middle (p a b : PyStr) : hasSub p (a ++ p ++ b) = true := by
  have hpb : hasSub p (p ++ b) = true := by
    cases hp : p ++ b with
    | nil =>
      have : p = [] := by
        cases p with
        | nil => rfl
        | cons c cs => simp at hp
      subst this
      exact hasSub_nil_left []
    | cons c cs =>
      have : ledBy p (p ++ b) = true := ledBy_append_self p b
      rw [hp] at this
      simp [hasSub, this, hp]
  have := hasSub_append_right a hpb
  simpa [List.append_assoc] using this

/-- Model of a Python exception value, distinguished by its class. -/
inductive PyExc where
  | valueError (msg : PyStr)
  | importError (msg : PyStr)
  | processingError (msg : PyStr)
  | otherError (name msg : PyStr)
deriving DecidableEq

/-- Python `str(e)`: the message carried by the exception. -/
def excMsg : PyExc → PyStr
  | .valueError m => m
  | .importError m => m
  | .processingError m => m
  | .otherError _ m => m

/-- Python `type(e).__name__`. -/
def excTypeName : PyExc → PyStr
  | .valueError _ => chars "ValueError"
  | .importError _ => chars "ImportError"
  | .processingError _ => chars "ProcessingError"
  | .otherError n _ => n

/-- Python `str.lower()` (sufficient for the ASCII file-type strings used). -/
def pyLower (s : PyStr) : PyStr := s.map Char.toLower

/-- Job status as derived by `list_documents` (backend/app/api/v1/documents.py,
lines 184-193): error marker wins, then markdown, else processing. -/
inductive DocStatus where
  | failed
  | ready
  | processing
deriving DecidableEq

/-- Embedding of the status derivation in `list_documents`
(backend/app/api/v1/documents.py, lines 184-193): the status is computed
purely from whether `docId.error` and `docId.md` exist. -/
def document_status (errorExists mdExists : Bool) : DocStatus :=
  if errorExists then .failed
  else if mdExists then .ready
  else .processing

/-- Content of the JSON error-marker file written by
`process_document_background` on failure
(backend/app/core/document_processor.py, lines 158-170). -/
structure ErrorInfo where
  error : PyStr
  error_type : PyStr
  timestamp : PyStr
  doc_id : PyStr
  file_path : PyStr
  file_type : PyStr
  processing_time : PyStr
  traceback : PyStr
deriving DecidableEq

/-- Embedding of `process_document_background`
(backend/app/core/document_processor.py, lines 19-172).  The processor run
is passed in as an `Except` value (`PDFProcessor.process` either returns
`(markdown, image_filenames)` or raises); `timestamp`, `tb` and `ptime`
stand for `datetime.now().isoformat()`, `traceback.format_exc()` and the
formatted processing time.  The function returns the pair
(markdown file written, error file written): on the success path only
`doc_id.md` is written, on any exception only `doc_id.error` is written.
Only `file_type.lower() == "pdf"` selects a processor; every other file
type raises `ValueError` (line 79-82). -/
def process_document_background (doc_id file_path file_type : PyStr)
    (processResult : Except PyExc (PyStr × List PyStr))
    (timestamp tb ptime : PyStr) : Option PyStr × Option ErrorInfo :=
  let run : Except PyExc PyStr :=
    if pyLower file_type == chars "pdf" then processResult.map (·.1)
    else .error (.valueError (chars "不支持的文件类型: " ++ file_type))
  match run with
  | .ok md => (some md, none)
  | .error e =>
      (none, some ⟨excMsg e, excTypeName e, timestamp, doc_id, file_path,
                   file_type, ptime, tb⟩)

/-- Converter strategy names (backend/app/models/document.py). -/
inductive ConverterType where
  | pix2text
  | marker
deriving DecidableEq

/-- Outcome of the facade's strategy selection: which converter actually
produces the result, and whether a fallback warning was logged. -/
structure FacadeOutcome where
  producedBy : ConverterType
  warned : Bool
deriving DecidableEq

/-- Modelled from the spec: the converter facade (strategy selection with
one-hop fallback, spec section 4.5) is not present under src/ — the revision
of `process_document_background` that accepts the `converter` argument its
caller `upload_document` passes (backend/app/api/v1/documents.py, line 146)
is missing; only the caller and the two converter classes exist.  Per the
spec, requesting the high-fidelity strategy ("marker") when its library is
not installed substitutes the default fast strategy ("pix2text") directly,
logging a warning; the fast strategy is never substituted. -/
def create_converter (requested : ConverterType) (markerAvailable : Bool) :
    FacadeOutcome :=
  match requested with
  | .pix2text => ⟨.pix2text, false⟩
  | .marker => if markerAvailable then ⟨.marker, false⟩ else ⟨.pix2text, true⟩

/-- C9: job status is a pure function of filesystem presence with fixed
precedence: an existing error marker yields Failed regardless of the
markdown file; otherwise an existing markdown file yields Ready; otherwise
Processing. -/
theorem status_precedence :
    ∀ md : Bool, document_status true md = .failed
      ∧ document_status false true = .ready
      ∧ document_status false false = .processing := by
  intro md
  refine ⟨rfl, rfl, rfl⟩

/-- C1: requesting the "marker" strategy while its library is unavailable
yields a result produced by the default fast strategy ("pix2text") with a
logged warning, not an error, and the substitution is exactly one hop
(directly to pix2text); when the library is available marker itself runs,
and pix2text requests are never substituted. -/
theorem facade_substitution :
    ∀ avail : Bool,
      create_converter .marker false = ⟨.pix2text, true⟩
      ∧ create_converter .marker true = ⟨.marker, false⟩
      ∧ create_converter .pix2text avail = ⟨.pix2text, false⟩ := by
  intro avail
  refine ⟨rfl, rfl, rfl⟩

/-- C5 (code evaluated at the failing input): for fileKind "docx" the
background task never produces a markdown artifact — even when the
processor run would succeed, the dispatch raises `ValueError` for any
file type other than "pdf", so the run writes the error marker and the
job can only reach Failed, never Ready. -/
theorem docx_never_ready :
    ∀ (d f ts tb pt md : PyStr) (imgs : List PyStr),
      process_document_background d f (chars "docx") (.ok (md, imgs)) ts tb pt
        = (none, some ⟨chars "不支持的文件类型: docx", chars "ValueError",
                       ts, d, f, chars "docx", pt, tb⟩) := by
  intro d f ts tb pt md imgs
  rfl

/-- C10: when the converter raises during background processing of a pdf,
the run writes only the structured error marker (carrying error,
error_type, timestamp, doc_id, file_path and traceback) and no markdown
file; on success only the markdown file is written; every run produces
exactly one of the two artifacts. -/
theorem error_marker_exclusive :
    ∀ (d f ft ts tb pt md : PyStr) (imgs : List PyStr) (e : PyExc)
      (res : Except PyExc (PyStr × List PyStr)),
      process_document_background d f (chars "pdf") (.error e) ts tb pt
        = (none, some ⟨excMsg e, excTypeName e, ts, d, f, chars "pdf", pt, tb⟩)
      ∧ process_document_background d f (chars "pdf") (.ok (md, imgs)) ts tb pt
        = (some md, none)
      ∧ ((process_document_background d f ft res ts tb pt).1.isSome
          ↔ (process_document_background d f ft res ts tb pt).2 = none) := by
  intro d f ft ts tb pt md imgs e res
  refine ⟨rfl, rfl, ?_⟩
  unfold process_document_background
  by_cases h : pyLower ft == chars "pdf"
  · simp only [h, if_pos rfl]
    cases res with
    | ok v => simp [Except.map]
    | error e2 => simp [Except.map]
  · simp only [h]
    simp

/-- Decimal digit string of a number (Python `str(i)` inside an f-string). -/
def natDigits (n : Nat) : PyStr := Nat.toDigits 10 n

/-- True when `s` ends with `p`. -/
def endsIn (p s : PyStr) : Bool := ledBy p.reverse s.reverse

/-- The public API target generated by `PDFProcessor._insert_image_references`
(backend/app/core/pdf_processor.py, line 464):
`f"/api/v1/documents/{doc_id}/images/{img_name}"` — no `.png` extension. -/
def pdf_api_path (doc_id img_name : PyStr) : PyStr :=
  chars "/api/v1/documents/" ++ doc_id ++ chars "/images/" ++ img_name

/-- The public API target generated by
`Pix2TextConverter._insert_image_references`
(backend/app/core/converters/pix2text_converter.py, line 391):
`f"/api/v1/documents/{doc_id}/images/{img_name}.png"`. -/
def p2t_api_path (doc_id img_name : PyStr) : PyStr :=
  chars "/api/v1/documents/" ++ doc_id ++ chars "/images/" ++ img_name
    ++ chars ".png"

/-- One appended line of `PDFProcessor._insert_image_references`
(backend/app/core/pdf_processor.py, line 465):
`f"**图 {i}**: ![{img_name}]({api_path})\n\n"`. -/
def pdfImageLine (doc_id : PyStr) (i : Nat) (img_name : PyStr) : PyStr :=
  (chars "**图 " ++ natDigits i ++ chars "**: ")
    ++ (chars "![" ++ img_name ++ chars "](" ++ pdf_api_path doc_id img_name
        ++ chars ")")
    ++ chars "\n\n"

/-- One appended line of `Pix2TextConverter._insert_image_references`
(backend/app/core/converters/pix2text_converter.py, line 392). -/
def p2tImageLine (doc_id : PyStr) (i : Nat) (img_name : PyStr) : PyStr :=
  (chars "**图 " ++ natDigits i ++ chars "**: ")
    ++ (chars "![" ++ img_name ++ chars "](" ++ p2t_api_path doc_id img_name
        ++ chars ")")
    ++ chars "\n\n"

/-- The `for i, img_name in enumerate(image_filenames, 1)` loop of
`PDFProcessor._insert_image_references`, accumulating the appended lines. -/
def pdfImagesLoop (doc_id : PyStr) : Nat → List PyStr → PyStr
  | _, [] => []
  | i, n :: ns => pdfImageLine doc_id i n ++ pdfImagesLoop doc_id (i + 1) ns

/-- The corresponding loop of `Pix2TextConverter._insert_image_references`. -/
def p2tImagesLoop (doc_id : PyStr) : Nat → List PyStr → PyStr
  | _, [] => []
  | i, n :: ns => p2tImageLine doc_id i n ++ p2tImagesLoop doc_id (i + 1) ns

/-- The section opener `"\n\n## 文档图像\n\n"` shared by both appenders. -/
def headerChunk : PyStr := chars "\n\n## 文档图像\n\n"

/-- The whole image section appended by `PDFProcessor`. -/
def pdfImagesSection (doc_id : PyStr) (names : List PyStr) : PyStr :=
  headerChunk ++ pdfImagesLoop doc_id 1 names

/-- The whole image section appended by `Pix2TextConverter`. -/
def p2tImagesSection (doc_id : PyStr) (names : List PyStr) : PyStr :=
  headerChunk ++ p2tImagesLoop doc_id 1 names

/-- Embedding of `PDFProcessor._insert_image_references`
(backend/app/core/pdf_processor.py, lines 423-467): unchanged markdown for
an empty image list, otherwise the image section is appended at the end. -/
def PDFProcessor_insert_image_references (markdown : PyStr)
    (image_filenames : List PyStr) (doc_id : PyStr) : PyStr :=
  if image_filenames = [] then markdown
  else markdown ++ pdfImagesSection doc_id image_filenames

/-- Embedding of `Pix2TextConverter._insert_image_references`
(backend/app/core/converters/pix2text_converter.py, lines 349-394). -/
def Pix2Text_insert_image_references (markdown : PyStr)
    (image_filenames : List PyStr) (doc_id : PyStr) : PyStr :=
  if image_filenames = [] then markdown
  else markdown ++ p2tImagesSection doc_id image_filenames

theorem hasSub_embed_p2tLoop (d name : PyStr) (l : List PyStr) (i : Nat)
    (h : name ∈ l) :
    hasSub (chars "![" ++ name ++ chars "](" ++ p2t_api_path d name ++ chars ")")
      (p2tImagesLoop d i l) = true := by
  induction l generalizing i with
  | nil => cases h
  | cons hd tl ih =>
    rcases List.mem_cons.mp h with rfl | hmem
    · simp only [p2tImagesLoop]
      apply hasSub_append_left
      unfold p2tImageLine
      exact hasSub_middle _ _ _
    · simp only [p2tImagesLoop]
      exact hasSub_append_right _ (ih hmem (i := i + 1))

theorem hasSub_embed_pdfLoop (d name : PyStr) (l : List PyStr) (i : Nat)
    (h : name ∈ l) :
    hasSub (chars "![" ++ name ++ chars "](" ++ pdf_api_path d name ++ chars ")")
      (pdfImagesLoop d i l) = true := by
  induction l generalizing i with
  | nil => cases h
  | cons hd tl ih =>
    rcases List.mem_cons.mp h with rfl | hmem
    · simp only [pdfImagesLoop]
      apply hasSub_append_left
      unfold pdfImageLine
      exact hasSub_middle _ _ _
    · simp only [pdfImagesLoop]
      exact hasSub_append_right _ (ih hmem (i := i + 1))

/-- C3 (amended): for every extracted image name, the Pix2TextConverter
append strategy embeds a reference whose target is
`/api/v1/documents/docId/images/name.png` — ending in `.png` — while the
PDFProcessor append strategy embeds the same target without the `.png`
extension. -/
theorem append_reference_targets (md d : PyStr) (l : List PyStr)
    (name : PyStr) (h : name ∈ l) :
    hasSub (chars "![" ++ name ++ chars "](" ++ p2t_api_path d name ++ chars ")")
      (Pix2Text_insert_image_references md l d) = true
    ∧ endsIn (chars ".png") (p2t_api_path d name) = true
    ∧ hasSub (chars "![" ++ name ++ chars "](" ++ pdf_api_path d name ++ chars ")")
      (PDFProcessor_insert_image_references md l d) = true := by
  have hl : l ≠ [] := by
    intro hnil
    subst hnil
    cases h
  refine ⟨?_, ?_, ?_⟩
  · unfold Pix2Text_insert_image_references
    rw [if_neg hl]
    apply hasSub_append_right
    unfold p2tImagesSection
    apply hasSub_append_right
    exact hasSub_embed_p2tLoop d name l 1 h
  · unfold endsIn p2t_api_path
    rw [List.reverse_append]
    exact ledBy_append_self _ _
  · unfold PDFProcessor_insert_image_references
    rw [if_neg hl]
    apply hasSub_append_right
    unfold pdfImagesSection
    apply hasSub_append_right
    exact hasSub_embed_pdfLoop d name l 1 h

/-- Witness for `append_reference_targets` at a concrete input. -/
theorem append_reference_targets_witness :
    hasSub (chars "![" ++ chars "img_001" ++ chars "]("
        ++ p2t_api_path (chars "d") (chars "img_001") ++ chars ")")
      (Pix2Text_insert_image_references (chars "Text") [chars "img_001"]
        (chars "d")) = true
    ∧ endsIn (chars ".png") (p2t_api_path (chars "d") (chars "img_001")) = true
    ∧ hasSub (chars "![" ++ chars "img_001" ++ chars "]("
        ++ pdf_api_path (chars "d") (chars "img_001") ++ chars ")")
      (PDFProcessor_insert_image_references (chars "Text") [chars "img_001"]
        (chars "d")) = true :=
  append_reference_targets (chars "Text") (chars "d") [chars "img_001"]
    (chars "img_001") (by decide)

/-- C3 (counterexample): on a one-image document the PDFProcessor append
strategy embeds the reference target `/api/v1/documents/d/images/img_001`,
and the produced markdown contains no occurrence of `.png` at all — the
claim that every embedded reference target ends in `.png` fails on
`PDFProcessor._insert_image_references`. -/
theorem pdf_append_target_without_png :
    hasSub (chars "](/api/v1/documents/d/images/img_001)")
      (PDFProcessor_insert_image_references (chars "Hello") [chars "img_001"]
        (chars "d")) = true
    ∧ hasSub (chars ".png")
      (PDFProcessor_insert_image_references (chars "Hello") [chars "img_001"]
        (chars "d")) = false := by
  decide

/-- C2 (amended): the append rewrite strategy is not idempotent — for every
markdown string and non-empty image list, running either appender twice
appends the image section twice (output = markdown ++ section ++ section),
so the second run is never a no-op. -/
theorem append_not_idempotent (md : PyStr) (l : List PyStr) (d : PyStr)
    (h : l ≠ []) :
    Pix2Text_insert_image_references (Pix2Text_insert_image_references md l d) l d
      = md ++ p2tImagesSection d l ++ p2tImagesSection d l
    ∧ Pix2Text_insert_image_references (Pix2Text_insert_image_references md l d) l d
      ≠ Pix2Text_insert_image_references md l d
    ∧ PDFProcessor_insert_image_references (PDFProcessor_insert_image_references md l d) l d
      = md ++ pdfImagesSection d l ++ pdfImagesSection d l
    ∧ PDFProcessor_insert_image_references (PDFProcessor_insert_image_references md l d) l d
      ≠ PDFProcessor_insert_image_references md l d := by
  have hh : headerChunk.length = 11 := rfl
  have hsec1 : 0 < (p2tImagesSection d l).length := by
    unfold p2tImagesSection
    rw [List.length_append, hh]
    omega
  have hsec2 : 0 < (pdfImagesSection d l).length := by
    unfold pdfImagesSection
    rw [List.length_append, hh]
    omega
  have e1 : Pix2Text_insert_image_references md l d = md ++ p2tImagesSection d l := by
    unfold Pix2Text_insert_image_references
    rw [if_neg h]
  have e2 : PDFProcessor_insert_image_references md l d = md ++ pdfImagesSection d l := by
    unfold PDFProcessor_insert_image_references
    rw [if_neg h]
  have d1 : Pix2Text_insert_image_references (Pix2Text_insert_image_references md l d) l d
      = md ++ p2tImagesSection d l ++ p2tImagesSection d l := by
    rw [e1]
    unfold Pix2Text_insert_image_references
    rw [if_neg h]
  have d2 : PDFProcessor_insert_image_references (PDFProcessor_insert_image_references md l d) l d
      = md ++ pdfImagesSection d l ++ pdfImagesSection d l := by
    rw [e2]
    unfold PDFProcessor_insert_image_references
    rw [if_neg h]
  refine ⟨d1, ?_, d2, ?_⟩
  · intro heq
    rw [d1, e1] at heq
    have := congrArg List.length heq
    simp only [List.length_append] at this
    omega
  · intro heq
    rw [d2, e2] at heq
    have := congrArg List.length heq
    simp only [List.length_append] at this
    omega

/-- Witness for `append_not_idempotent` at a concrete input. -/
theorem append_not_idempotent_witness :
    Pix2Text_insert_image_references
        (Pix2Text_insert_image_references (chars "Hello") [chars "img_001"] (chars "d"))
        [chars "img_001"] (chars "d")
      = chars "Hello" ++ p2tImagesSection (chars "d") [chars "img_001"]
          ++ p2tImagesSection (chars "d") [chars "img_001"]
    ∧ Pix2Text_insert_image_references
        (Pix2Text_insert_image_references (chars "Hello") [chars "img_001"] (chars "d"))
        [chars "img_001"] (chars "d")
      ≠ Pix2Text_insert_image_references (chars "Hello") [chars "img_001"] (chars "d")
    ∧ PDFProcessor_insert_image_references
        (PDFProcessor_insert_image_references (chars "Hello") [chars "img_001"] (chars "d"))
        [chars "img_001"] (chars "d")
      = chars "Hello" ++ pdfImagesSection (chars "d") [chars "img_001"]
          ++ pdfImagesSection (chars "d") [chars "img_001"]
    ∧ PDFProcessor_insert_image_references
        (PDFProcessor_insert_image_references (chars "Hello") [chars "img_001"] (chars "d"))
        [chars "img_001"] (chars "d")
      ≠ PDFProcessor_insert_image_references (chars "Hello") [chars "img_001"] (chars "d") :=
  append_not_idempotent (chars "Hello") [chars "img_001"] (chars "d") (by decide)

set_option maxRecDepth 40000 in
/-- C2 (counterexample): running the Pix2TextConverter append strategy twice
on markdown "Hello" with image list [img_001] yields markdown containing the
image-section header twice, not once — the claimed idempotence fails. -/
theorem append_twice_two_sections :
    countSub (chars "## 文档图像")
      (Pix2Text_insert_image_references
        (Pix2Text_insert_image_references (chars "Hello") [chars "img_001"] (chars "d"))
        [chars "img_001"] (chars "d")) = 2
    ∧ countSub (chars "## 文档图像")
      (Pix2Text_insert_image_references
        (Pix2Text_insert_image_references (chars "Hello") [chars "img_001"] (chars "d"))
        [chars "img_001"] (chars "d")) ≠ 1 := by
  decide

/-- Embedding of the lazy `p2t` property of `PDFProcessor`
(backend/app/core/pdf_processor.py, lines 95-129).  `first` is the outcome
of `Pix2Text.from_config(..., device=self.device)` and `retry` the outcome
of the retried `Pix2Text.from_config(..., device='cpu')`; the result carries
the built handle together with the device the instance ends up on.
A `ValueError` whose message mentions `CUDAExecutionProvider`, raised under
device `cuda`, triggers the one-time downgrade and retry; any other
`ValueError` is re-raised as is (the bare `raise` on line 123); any
non-`ValueError` exception is wrapped in `ProcessingError` (line 127). -/
def PDFProcessor_p2t {α : Type} (first retry : Except PyExc α)
    (device : PyStr) : Except PyExc (α × PyStr) :=
  match first with
  | .ok h => .ok (h, device)
  | .error (.valueError m) =>
      if hasSub (chars "CUDAExecutionProvider") m && device == chars "cuda" then
        match retry with
        | .ok h => .ok (h, chars "cpu")
        | .error e2 => .error e2
      else .error (.valueError m)
  | .error e => .error (.processingError (chars "Pix2Text 模型初始化失败: " ++ excMsg e))

/-- Embedding of the lazy `p2t` property of `Pix2TextConverter`
(backend/app/core/converters/pix2text_converter.py, lines 37-64).  Same
recognized-error downgrade, but here an unrecognized `ValueError` is wrapped
in `ProcessingError` (line 62) while a non-`ValueError` exception has no
handler at all and propagates raw. -/
def Pix2TextConverter_p2t {α : Type} (first retry : Except PyExc α)
    (device : PyStr) : Except PyExc (α × PyStr) :=
  match first with
  | .ok h => .ok (h, device)
  | .error (.valueError m) =>
      if hasSub (chars "CUDAExecutionProvider") m && device == chars "cuda" then
        match retry with
        | .ok h => .ok (h, chars "cpu")
        | .error e2 => .error e2
      else .error (.processingError (chars "Pix2Text初始化失败: " ++ m))
  | .error e => .error e

/-- C8 (amended): under device `cuda`, a `ValueError` mentioning
`CUDAExecutionProvider` triggers exactly one downgrade to `cpu` and one
retry in both implementations (a failing retry propagates without further
retries); but an unrecognized construction failure does not uniformly
surface as `ProcessingError`: `PDFProcessor` re-raises an unrecognized
`ValueError` unchanged and wraps only non-`ValueError` exceptions, while
`Pix2TextConverter` wraps unrecognized `ValueError`s and lets every
non-`ValueError` exception propagate raw. -/
theorem p2t_downgrade_taxonomy (m1 m2 n mm : PyStr)
    (retry : Except PyExc Unit)
    (h1 : hasSub (chars "CUDAExecutionProvider") m1 = true)
    (h2 : hasSub (chars "CUDAExecutionProvider") m2 = false) :
    PDFProcessor_p2t (.error (.valueError m1)) retry (chars "cuda")
      = (match retry with
         | .ok h => .ok (h, chars "cpu")
         | .error e2 => .error e2)
    ∧ Pix2TextConverter_p2t (.error (.valueError m1)) retry (chars "cuda")
      = (match retry with
         | .ok h => .ok (h, chars "cpu")
         | .error e2 => .error e2)
    ∧ PDFProcessor_p2t (.error (.valueError m2)) retry (chars "cuda")
      = .error (.valueError m2)
    ∧ Pix2TextConverter_p2t (.error (.valueError m2)) retry (chars "cuda")
      = .error (.processingError (chars "Pix2Text初始化失败: " ++ m2))
    ∧ PDFProcessor_p2t (α := Unit) (.error (.otherError n mm)) retry (chars "cuda")
      = .error (.processingError (chars "Pix2Text 模型初始化失败: " ++ mm))
    ∧ Pix2TextConverter_p2t (α := Unit) (.error (.otherError n mm)) retry (chars "cuda")
      = .error (.otherError n mm) := by
  refine ⟨?_, ?_, ?_, ?_, rfl, rfl⟩
  · unfold PDFProcessor_p2t
    cases retry <;> simp [h1]
  · unfold Pix2TextConverter_p2t
    cases retry <;> simp [h1]
  · unfold PDFProcessor_p2t
    simp [h2]
  · unfold Pix2TextConverter_p2t
    simp [h2]

/-- Witness for `p2t_downgrade_taxonomy` at concrete inputs. -/
theorem p2t_downgrade_taxonomy_witness :
    PDFProcessor_p2t (.error (.valueError (chars "CUDAExecutionProvider missing")))
        (.ok ()) (chars "cuda")
      = (match (.ok () : Except PyExc Unit) with
         | .ok h => .ok (h, chars "cpu")
         | .error e2 => .error e2)
    ∧ Pix2TextConverter_p2t (.error (.valueError (chars "CUDAExecutionProvider missing")))
        (.ok ()) (chars "cuda")
      = (match (.ok () : Except PyExc Unit) with
         | .ok h => .ok (h, chars "cpu")
         | .error e2 => .error e2)
    ∧ PDFProcessor_p2t (.error (.valueError (chars "bad config")))
        (.ok ()) (chars "cuda")
      = .error (.valueError (chars "bad config"))
    ∧ Pix2TextConverter_p2t (.error (.valueError (chars "bad config")))
        (.ok ()) (chars "cuda")
      = .error (.processingError (chars "Pix2Text初始化失败: " ++ chars "bad config"))
    ∧ PDFProcessor_p2t (α := Unit) (.error (.otherError (chars "RuntimeError") (chars "boom")))
        (.ok ()) (chars "cuda")
      = .error (.processingError (chars "Pix2Text 模型初始化失败: " ++ chars "boom"))
    ∧ Pix2TextConverter_p2t (α := Unit) (.error (.otherError (chars "RuntimeError") (chars "boom")))
        (.ok ()) (chars "cuda")
      = .error (.otherError (chars "RuntimeError") (chars "boom")) :=
  p2t_downgrade_taxonomy (chars "CUDAExecutionProvider missing")
    (chars "bad config") (chars "RuntimeError") (chars "boom") (.ok ())
    (by decide) (by decide)

/-- True when the outcome is a raised `ProcessingError`. -/
def raisesProcessingError {α : Type} : Except PyExc α → Bool
  | .error (.processingError _) => true
  | _ => false

/-- C8 (counterexample): a non-`ValueError` construction failure (a
`RuntimeError`) under device `cuda` propagates raw out of
`Pix2TextConverter.p2t` — not as a `ProcessingError` — so the claim that
any other construction failure surfaces as ConversionError
(ProcessingError) fails on the code. -/
theorem p2t_runtime_error_not_wrapped :
    Pix2TextConverter_p2t (α := Unit)
        (.error (.otherError (chars "RuntimeError") (chars "model load failed")))
        (.ok ()) (chars "cuda")
      = .error (.otherError (chars "RuntimeError") (chars "model load failed"))
    ∧ raisesProcessingError (Pix2TextConverter_p2t (α := Unit)
        (.error (.otherError (chars "RuntimeError") (chars "model load failed")))
        (.ok ()) (chars "cuda")) = false := by
  exact ⟨rfl, rfl⟩

/-- One embedded raster image descriptor as PyMuPDF lists it:
`xref` is `img[0]`, and `decodeOk` records whether
`doc.extract_image(xref)` plus the PNG write succeed (the body of the inner
`try` of the extraction loop). -/
structure ImgDesc where
  xref : Nat
  decodeOk : Bool
deriving DecidableEq

/-- Python `f"{n:03d}"`: decimal digits left-padded with zeros to width 3. -/
def pad3 (n : Nat) : PyStr :=
  if n < 10 then '0' :: '0' :: natDigits n
  else if n < 100 then '0' :: natDigits n
  else natDigits n

/-- The generated image filename `f"img_{i:03d}"`. -/
def imgName (i : Nat) : PyStr := chars "img_" ++ pad3 i

/-- The inner loop of `_extract_images` over one page's descriptors
(backend/app/core/pdf_processor.py, lines 319-389, and identically
backend/app/core/converters/pix2text_converter.py, lines 224-294): a seen
xref is skipped; otherwise the xref is added to the seen set, and on a
successful decode the next `img_{idx:03d}` name is appended and the counter
advances — a failed decode is skipped with a warning and the counter does
not advance.  Returns (appended names, seen set, counter). -/
def extractPage : List ImgDesc → List Nat → Nat → List PyStr × List Nat × Nat
  | [], seen, idx => ([], seen, idx)
  | d :: rest, seen, idx =>
    if seen.contains d.xref then extractPage rest seen idx
    else if d.decodeOk then
      let r := extractPage rest (d.xref :: seen) (idx + 1)
      (imgName idx :: r.1, r.2)
    else extractPage rest (d.xref :: seen) idx

/-- The outer loop of `_extract_images` over pages 0..N-1, threading the
seen set and the counter across pages. -/
def extractPagesAux :
    List (List ImgDesc) → List Nat → Nat → List PyStr × List Nat × Nat
  | [], seen, idx => ([], seen, idx)
  | p :: ps, seen, idx =>
    let r := extractPage p seen idx
    let r2 := extractPagesAux ps r.2.1 r.2.2
    (r.1 ++ r2.1, r2.2)

/-- Embedding of the normal path of `_extract_images`: the filename list it
returns, starting from an empty seen set and counter 1
(backend/app/core/pdf_processor.py, lines 305-415). -/
def extract_images (pages : List (List ImgDesc)) : List PyStr :=
  (extractPagesAux pages [] 1).1

/-- Specification-side helper: the descriptors that are the first occurrence
of their xref, in traversal order, given an already-seen set. -/
def firstOcc : List ImgDesc → List Nat → List ImgDesc
  | [], _ => []
  | d :: rest, seen =>
    if seen.contains d.xref then firstOcc rest seen
    else d :: firstOcc rest (d.xref :: seen)

/-- Specification-side helper: how many first-occurrence descriptors decode
successfully — the number of images the extraction saves. -/
def goodCount (imgs : List ImgDesc) (seen : List Nat) : Nat :=
  ((firstOcc imgs seen).filter (fun d => d.decodeOk)).length

theorem goodCount_cons_seen {d : ImgDesc} {seen : List Nat}
    (rest : List ImgDesc) (h : seen.contains d.xref = true) :
    goodCount (d :: rest) seen = goodCount rest seen := by
  have hmem : d.xref ∈ seen := by simpa using h
  simp [goodCount, firstOcc, hmem]

theorem goodCount_cons_bad {d : ImgDesc} {seen : List Nat}
    (rest : List ImgDesc) (h : seen.contains d.xref = false)
    (hd : d.decodeOk = false) :
    goodCount (d :: rest) seen = goodCount rest (d.xref :: seen) := by
  have hmem : d.xref ∉ seen := by simpa using h
  simp [goodCount, firstOcc, hmem, hd, List.filter_cons]

theorem goodCount_cons_good {d : ImgDesc} {seen : List Nat}
    (rest : List ImgDesc) (h : seen.contains d.xref = false)
    (hd : d.decodeOk = true) :
    goodCount (d :: rest) seen = goodCount rest (d.xref :: seen) + 1 := by
  have hmem : d.xref ∉ seen := by simpa using h
  simp [goodCount, firstOcc, hmem, hd, List.filter_cons]

theorem extractPage_spec (imgs : List ImgDesc) :
    ∀ (seen : List Nat) (idx : Nat),
      (extractPage imgs seen idx).1
        = (List.range (goodCount imgs seen)).map (fun j => imgName (idx + j))
      ∧ (extractPage imgs seen idx).2.2 = idx + goodCount imgs seen := by
  induction imgs with
  | nil => intro seen idx; simp [extractPage, goodCount, firstOcc]
  | cons d rest ih =>
    intro seen idx
    cases hc : seen.contains d.xref with
    | true =>
      rw [goodCount_cons_seen rest hc]
      simp only [extractPage, hc, if_true]
      exact ih seen idx
    | false =>
      cases hd : d.decodeOk with
      | false =>
        rw [goodCount_cons_bad rest hc hd]
        simp only [extractPage, hc, hd, Bool.false_eq_true, if_false]
        exact ih (d.xref :: seen) idx
      | true =>
        have ihr := ih (d.xref :: seen) (idx + 1)
        rw [goodCount_cons_good rest hc hd]
        simp only [extractPage, hc, hd, Bool.false_eq_true, if_false, if_true]
        constructor
        · rw [ihr.1, List.range_succ_eq_map, List.map_cons, List.map_map]
          refine congrArg₂ List.cons ?_ ?_
          · simp
          · exact List.map_congr_left fun j _ => by
              simp only [Function.comp_apply]
              congr 1
              omega
        · rw [ihr.2]
          omega

theorem extractPage_append (a b : List ImgDesc) :
    ∀ (seen : List Nat) (idx : Nat),
      extractPage (a ++ b) seen idx
        = ((extractPage a seen idx).1
            ++ (extractPage b (extractPage a seen idx).2.1
                 (extractPage a seen idx).2.2).1,
           (extractPage b (extractPage a seen idx).2.1
             (extractPage a seen idx).2.2).2) := by
  induction a with
  | nil => intro seen idx; simp [extractPage]
  | cons d rest ih =>
    intro seen idx
    cases hc : seen.contains d.xref with
    | true =>
      simp only [List.cons_append, extractPage, hc, if_true]
      exact ih seen idx
    | false =>
      cases hd : d.decodeOk with
      | false =>
        simp only [List.cons_append, extractPage, hc, hd, Bool.false_eq_true,
          if_false]
        exact ih (d.xref :: seen) idx
      | true =>
        simp only [List.cons_append, extractPage, hc, hd, Bool.false_eq_true,
          if_false, if_true, List.append_eq]
        rw [ih (d.xref :: seen) (idx + 1)]

theorem extractPagesAux_flatten (pages : List (List ImgDesc)) :
    ∀ (seen : List Nat) (idx : Nat),
      extractPagesAux pages seen idx = extractPage pages.flatten seen idx := by
  induction pages with
  | nil => intro seen idx; simp [extractPagesAux, extractPage]
  | cons p ps ih =>
    intro seen idx
    simp only [extractPagesAux, ih, List.flatten_cons]
    rw [extractPage_append]

/-- C6: extraction returns exactly the filenames `img_001 .. img_00k` with
3-digit zero-padded, 1-based, consecutive indices, where `k` is the number
of first-occurrence (per xref, in page order then within-page order)
descriptors that decode successfully: a repeated xref contributes at most
one entry, and a failed decode leaves no gap because the counter does not
advance for it. -/
theorem extraction_consecutive_names (pages : List (List ImgDesc)) :
    extract_images pages
      = (List.range (goodCount pages.flatten [])).map (fun j => imgName (1 + j)) := by
  unfold extract_images
  rw [extractPagesAux_flatten]
  exact (extractPage_spec pages.flatten [] 1).1

/-- Outcome classifier: true when the extraction run returned a value. -/
def extractReturned : Except PyExc (List PyStr) → Bool
  | .ok _ => true
  | .error _ => false

/-- Embedding of the effectful shell of `_extract_images`
(backend/app/core/pdf_processor.py, lines 265-421, identically
backend/app/core/converters/pix2text_converter.py, lines 170-347):
`image_dir.mkdir(parents=True, exist_ok=True)` runs before the `try`
(lines 295-296), so its failure propagates; `fitz.open` and the whole page
loop run inside the `try`, whose `except Exception` returns `[]`. -/
def extract_images_run (mkdirResult : Except PyExc Unit)
    (openResult : Except PyExc (List (List ImgDesc))) :
    Except PyExc (List PyStr) :=
  match mkdirResult with
  | .error e => .error e
  | .ok _ =>
    match openResult with
    | .error _ => .ok []
    | .ok pages => .ok (extract_images pages)

/-- C7 (amended): once the initial creation of the output image directory
succeeds, no exception escapes image extraction — an unreadable or corrupt
document (or any failure inside the page loop) yields `[]`, and a readable
document yields its filename sequence; but the directory-creation call runs
before the `try` block, so its failure propagates to the caller. -/
theorem extraction_total_after_mkdir
    (e : PyExc) (pages : List (List ImgDesc))
    (openRes : Except PyExc (List (List ImgDesc))) :
    extract_images_run (.ok ()) (.error e) = .ok []
    ∧ extract_images_run (.ok ()) (.ok pages) = .ok (extract_images pages)
    ∧ extract_images_run (.error e) openRes = .error e := by
  exact ⟨rfl, rfl, by cases openRes <;> rfl⟩

/-- C7 (counterexample): a failing `image_dir.mkdir` — e.g. an unwritable
output directory — escapes `_extract_images` as a raised exception, so the
claim that extraction never raises for every input fails on the code. -/
theorem extraction_mkdir_escapes :
    extract_images_run
        (.error (.otherError (chars "PermissionError") (chars "mkdir failed")))
        (.ok [])
      = .error (.otherError (chars "PermissionError") (chars "mkdir failed"))
    ∧ extractReturned (extract_images_run
        (.error (.otherError (chars "PermissionError") (chars "mkdir failed")))
        (.ok [])) = false := by
  exact ⟨rfl, rfl⟩

/-- The literal closing sequence `](original_id)` that terminates a match of
the pattern `!\[.*?\]\(original_id\)` used by
`MarkerConverter._process_image_references`. -/
def closeSeq (target : PyStr) : PyStr := ']' :: '(' :: (target ++ [')'])

/-- Model of the lazy `.*?` search of Python's regex engine: scanning right
from the position just after `![`, return the remainder of the string after
the first occurrence of `](target)` that is reachable without crossing a
newline (`.` does not match a newline); `none` when no such occurrence
exists on the line. -/
def findClose (target : PyStr) : PyStr → Option PyStr
  | [] => none
  | c :: cs =>
    if ledBy (closeSeq target) (c :: cs) then
      some ((c :: cs).drop (closeSeq target).length)
    else if c == '\n' then none
    else findClose target cs

/-- Model of `re.sub(r'!\[.*?\]\(target\)', repl, s)` for a literal
(`re.escape`d) target: scan left to right; at each `![` attempt the lazy
match, replace the whole matched span and continue after it (replacements
are not rescanned); otherwise advance one character.  The `fuel` argument
makes the recursion structural; every call site passes fuel at least the
length of the string, and each step consumes one fuel and at least one
character, so the fuel never runs out before the scan completes. -/
def reSubFuel (target repl : PyStr) : Nat → PyStr → PyStr
  | 0, s => s
  | fuel + 1, s =>
    match s with
    | [] => []
    | '!' :: '[' :: rest =>
      match findClose target rest with
      | some r => repl ++ reSubFuel target repl fuel r
      | none => '!' :: reSubFuel target repl fuel ('[' :: rest)
    | c :: cs => c :: reSubFuel target repl fuel cs

/-- One global regex substitution `re.sub(pattern, repl, markdown)` as used
in `MarkerConverter._process_image_references`
(backend/app/core/converters/marker_converter.py, lines 207-208). -/
def reSub (target repl s : PyStr) : PyStr := reSubFuel target repl s.length s

/-- The four target spellings tried for each original id
(backend/app/core/converters/marker_converter.py, lines 200-205): the bare
id, `./id`, `images/id` and `./images/id`. -/
def marker_patterns (original_id : PyStr) : List PyStr :=
  [original_id,
   chars "./" ++ original_id,
   chars "images/" ++ original_id,
   chars "./images/" ++ original_id]

set_option linter.unusedVariables false in
/-- Embedding of `MarkerConverter._process_image_references`
(backend/app/core/converters/marker_converter.py, lines 175-215): for each
`(original_id, new_filename)` of the mapping, in insertion order, each of
the four patterns is substituted globally by
`![new_filename](/api/v1/documents/doc_id/images/new_filename.png)`.
`image_filenames` is received but, as in the source, only logged. -/
def MarkerConverter_process_image_references (markdown : PyStr)
    (image_filenames : List PyStr) (image_id_mapping : List (PyStr × PyStr))
    (doc_id : PyStr) : PyStr :=
  image_id_mapping.foldl (fun md oid_fn =>
    let api_path := chars "/api/v1/documents/" ++ doc_id ++ chars "/images/"
        ++ oid_fn.2 ++ chars ".png"
    let repl := chars "![" ++ oid_fn.2 ++ chars "](" ++ api_path ++ chars ")"
    (marker_patterns oid_fn.1).foldl (fun m t => reSub t repl m) md) markdown

theorem findClose_none {target : PyStr} :
    ∀ {s : PyStr}, hasSub (closeSeq target) s = false → findClose target s = none := by
  intro s
  induction s with
  | nil => intro _; rfl
  | cons c cs ih =>
    intro h
    simp only [hasSub, Bool.or_eq_false_iff] at h
    simp only [findClose, h.1, if_false]
    by_cases hn : c == '\n'
    · simp [hn]
    · simp only [hn, if_false]
      exact ih h.2

theorem reSubFuel_no_occurrence {target repl : PyStr} :
    ∀ (fuel : Nat) (s : PyStr),
      hasSub (closeSeq target) s = false → reSubFuel target repl fuel s = s := by
  intro fuel
  induction fuel with
  | zero => intro s _; rfl
  | succ fuel ih =>
    intro s h
    simp only [reSubFuel]
    split
    · rfl
    · rename_i rest
      simp only [hasSub, Bool.or_eq_false_iff] at h
      rw [findClose_none h.2.2]
      rw [ih ('[' :: rest) (by
        simp only [hasSub, Bool.or_eq_false_iff]
        exact ⟨h.2.1, h.2.2⟩)]
    · rename_i c cs hne
      simp only [hasSub, Bool.or_eq_false_iff] at h
      rw [ih cs h.2]

theorem reSub_no_occurrence {target repl s : PyStr}
    (h : hasSub (closeSeq target) s = false) : reSub target repl s = s :=
  reSubFuel_no_occurrence s.length s h

theorem reSubFold_no_occurrence {repl md : PyStr} :
    ∀ (ts : List PyStr), (∀ t ∈ ts, hasSub (closeSeq t) md = false) →
      ts.foldl (fun m t => reSub t repl m) md = md := by
  intro ts
  induction ts with
  | nil => intro _; rfl
  | cons t ts ih =>
    intro h
    have h0 : reSub t repl md = md :=
      reSub_no_occurrence (h t (List.mem_cons_self t ts))
    simp only [List.foldl_cons, h0]
    exact ih fun u hu => h u (List.mem_cons_of_mem t hu)

/-- C4 (amended): the exact-match rewrite leaves the markdown byte-identical
whenever no embed target in it spells a mapped sourceId under any of the
four accepted spellings (bare, `./`, `images/`, `./images/`) — in
particular, every embed whose target is unmapped survives unchanged in that
case.  The restriction is necessary: when a mapped embed occurs later on
the same line, the lazy pattern `!\[.*?\]\(id\)` can span from an earlier
unrelated embed's `![` to the mapped target and swallow the unrelated embed
(see the counterexample). -/
theorem marker_unmatched_unchanged
    (markdown : PyStr) (fns : List PyStr)
    (mapping : List (PyStr × PyStr)) (doc_id : PyStr)
    (h : ∀ p ∈ mapping, ∀ t ∈ marker_patterns p.1,
      hasSub (closeSeq t) markdown = false) :
    MarkerConverter_process_image_references markdown fns mapping doc_id
      = markdown := by
  unfold MarkerConverter_process_image_references
  induction mapping with
  | nil => rfl
  | cons p ms ih =>
    simp only [List.foldl_cons]
    rw [reSubFold_no_occurrence (marker_patterns p.1)
      (h p (List.mem_cons_self p ms))]
    exact ih fun q hq => h q (List.mem_cons_of_mem p hq)

/-- Witness for `marker_unmatched_unchanged`: markdown holding a single
embed whose target maps to nothing is returned byte-identical. -/
theorem marker_unmatched_unchanged_witness :
    MarkerConverter_process_image_references (chars "see ![a](other.jpeg) here")
        [chars "img_001"] [(chars "fig1", chars "img_001")] (chars "d")
      = chars "see ![a](other.jpeg) here" :=
  marker_unmatched_unchanged (chars "see ![a](other.jpeg) here")
    [chars "img_001"] [(chars "fig1", chars "img_001")] (chars "d")
    (by decide)

set_option maxRecDepth 40000 in
/-- C4 (counterexample): in `![a](x) ![b](fig1)` with the mapping
`fig1 -> img_001`, the embed `![a](x)` — whose target `x` is unmapped — is
not left byte-identical: the lazy pattern spans from its `![` to the mapped
target `fig1`, and the whole line collapses to the single replacement
embed.  This falsifies both halves of the claim at a concrete input. -/
theorem marker_swallows_unmatched_embed :
    MarkerConverter_process_image_references (chars "![a](x) ![b](fig1)")
        [chars "img_001"] [(chars "fig1", chars "img_001")] (chars "d")
      = chars "![img_001](/api/v1/documents/d/images/img_001.png)"
    ∧ hasSub (chars "![a](x)")
        (MarkerConverter_process_image_references (chars "![a](x) ![b](fig1)")
          [chars "img_001"] [(chars "fig1", chars "img_001")] (chars "d"))
      = false := by
  decide
